import Mathlib

set_option maxHeartbeats 1000000

/- Verification development for the yuna repository: a shallow embedding of
the Crunchyroll/Hidive provider clients and the optimistic list-mutation and
cache layer, with theorems settling the documented claims about them.
JS numbers are modelled as exact rationals, with NaN as `none`. -/

/-! ## JS number-string helpers (Crunchyroll normalizer, part_001) -/

/-- Digits-and-dot filter: models `str.replace(/[^\d.]/g, '')` from the
source's `onlyNumbers`. -/
def onlyNumbersL (cs : List Char) : List Char :=
  cs.filter (fun c => c.isDigit || c == '.')

/-- Value of an ASCII digit string, most significant digit first. -/
def digitsToNat (cs : List Char) : Nat :=
  cs.foldl (fun acc c => 10 * acc + (c.toNat - 48)) 0

/-- Split a character list at every dot, keeping empty parts (like JS
`"a.b".split('.')`). -/
def splitDots : List Char → List (List Char)
  | [] => [[]]
  | c :: rest =>
    if c == '.' then [] :: splitDots rest
    else
      match splitDots rest with
      | [] => [[c]]
      | p :: ps => (c :: p) :: ps

/-- JS `Number(s)` restricted to strings of digits and dots (all that can
remain after `onlyNumbers`): `Number("") = 0`; two or more dots, or a lone
dot with no digits, give NaN (modelled as `none`); otherwise the decimal
value, as an exact rational. -/
def parseJsNumber (cs : List Char) : Option Rat :=
  if cs.isEmpty then some 0
  else
    match splitDots cs with
    | [intPart] => some (digitsToNat intPart : Rat)
    | [intPart, fracPart] =>
      if intPart.isEmpty && fracPart.isEmpty then none
      else some ((digitsToNat intPart : Rat) +
        (digitsToNat fracPart : Rat) / ((10 : Rat) ^ fracPart.length))
    | _ => none

/-- Translated from `getEpisodeNumber` (part_001, lines 1140-1146): stringify
if needed, strip every character that is not a digit or a dot, and apply JS
`Number`. The argument here is the string form; NaN is modelled as `none`. -/
def getEpisodeNumber (s : String) : Option Rat :=
  parseJsNumber (onlyNumbersL s.data)

/-! ## Episode filtering (claim C6) -/

/-- The `episode_number` field of a Crunchyroll `_Media` payload entry — the
only field the episode filters inspect. -/
structure MediaEntry where
  episode_number : String
deriving DecidableEq

/-- Translated from `episodeNumberIsHalf` (part_001, lines 1168-1169):
`getEpisodeNumber(episode_number) % 1 !== 0`. In JS, `NaN % 1` is `NaN`,
which is `!== 0`; a nonnegative finite `q` has `q % 1 === 0` exactly when
`q` is an integer, i.e. its reduced denominator is 1. -/
def episodeNumberIsHalf (m : MediaEntry) : Bool :=
  match getEpisodeNumber m.episode_number with
  | none => true
  | some q => !(q.den == 1)

/-- Translated from `isSpecialEpisode` (part_001, lines 1171-1172). -/
def isSpecialEpisode (m : MediaEntry) : Bool :=
  m.episode_number == "SP" || m.episode_number == ""

/-- Translated from `isRealEpisode` (part_001, lines 1174-1175):
`!anyPass(ep, [episodeNumberIsHalf, isSpecialEpisode])`, where `anyPass`
(a generic utils combinator) is the disjunction of its predicates. -/
def isRealEpisode (m : MediaEntry) : Bool :=
  !(episodeNumberIsHalf m || isSpecialEpisode m)

/-- Spec-side reading of "the entry's episode number is fractional": the
episode-number string does not denote a whole number. -/
def specIsFractional (s : String) : Prop :=
  ∀ n : ℕ, getEpisodeNumber s ≠ some (n : Rat)

/-! ## Episode renumbering (claim C1) -/

/-- Input shape of `fixEpisodeNumbers`: the fields it reads or rewrites.
Crunchyroll's `mediaToEpisode` stores the raw `episode_number` string in the
`episodeNumber` field, so a fresh episode's number is a string. -/
structure RawEpisode where
  id : String
  episodeNumber : String
deriving DecidableEq

/-- Output shape: the spread `{ ...ep, episodeNumber: num - firstIndex }`
replaces the episode number by a JS number (NaN modelled as `none`). -/
structure FixedEpisode where
  id : String
  episodeNumber : Option Rat
deriving DecidableEq

/-- JS subtraction with NaN propagation. -/
def jsSub : Option Rat → Option Rat → Option Rat
  | some a, some b => some (a - b)
  | _, _ => none

/-- JS `Math.max(0, x)`, which is NaN when `x` is NaN. -/
def jsMax0 : Option Rat → Option Rat
  | some a => some (max 0 a)
  | none => none

/-- Translated from `fixEpisodeNumbers` (part_001, lines 1148-1165). The
`isNil(episodes[0]?.episodeNumber)` guard fires exactly when the list is
empty, since a present episode's `episodeNumber` string is never nullish. -/
def fixEpisodeNumbers (episodes : List RawEpisode) : List FixedEpisode :=
  match episodes.head? with
  | none => []
  | some ep0 =>
    let firstIndex := jsMax0 (jsSub (getEpisodeNumber ep0.episodeNumber) (some 1))
    episodes.map (fun ep =>
      { id := ep.id
        episodeNumber := jsSub (getEpisodeNumber ep.episodeNumber) firstIndex })

/-! ## List-mutation layer data model (claims C2-C5)

The mutation functions live in `src/graphql/mutations/list-entry.ts`.
The cache helpers they call (`addToCacheList`, `removeFromCacheList`,
`writeEpisodeProgressToCache`, from `@/utils/cache`) are not part of the
provided sources, so those three are modelled from the spec (section 4.4). -/

/-- Anilist media-list statuses (`MediaListStatus` from the generated GraphQL
types). -/
inductive MediaListStatus where
  | Current
  | Planning
  | Completed
  | Dropped
  | Paused
  | Repeating
deriving DecidableEq

/-- Streaming providers referenced by the mutation layer. -/
inductive Provider where
  | Crunchyroll
  | Hidive
deriving DecidableEq

/-- A `ListEntry` as the mutation layer sees it (`__typename` omitted). -/
structure ListEntry where
  id : Int
  mediaId : Int
  score : Int
  progress : Int
  rewatched : Int
  status : MediaListStatus
deriving DecidableEq

/-- `Partial<Omit<ListEntry, '__typename' | 'mediaId'>>`: the requested
change; a `some` field is present in the object literal and overrides. -/
structure EntryPatch where
  id : Option Int := none
  score : Option Int := none
  progress : Option Int := none
  rewatched : Option Int := none
  status : Option MediaListStatus := none
deriving DecidableEq

/-- The argument of `setProgress` and `writeEpisodeProgressToCache`. -/
structure EpisodeMutationObject where
  provider : Provider
  animeId : Int
  episodeNumber : Int
deriving DecidableEq

/-- The slice of the Apollo cache the mutation layer touches: the normalized
`ListEntry:<mediaId>` objects, the per-status list views, and the cached
current-episode pointer per anime/provider pair. -/
structure Cache where
  entries : Int → Option ListEntry
  buckets : MediaListStatus → List ListEntry
  episodeProgress : Provider × Int → Option Int

/-- JS spread `{ ...base, ...patch }`: every field present in the patch
overrides the base. -/
def overlayPatch (base : ListEntry) (p : EntryPatch) : ListEntry :=
  { id := p.id.getD base.id
    mediaId := base.mediaId
    score := p.score.getD base.score
    progress := p.progress.getD base.progress
    rewatched := p.rewatched.getD base.rewatched
    status := p.status.getD base.status }

/-- Translated from `getOptimisticResponse` (list-entry.ts, lines 44-63):
read the cached entry for `ListEntry:<anilistId>` and overlay the requested
change on it, each missing field falling back to its sentinel default. -/
def getOptimisticResponse (c : Cache) (anilistId : Int) (newValues : EntryPatch) :
    ListEntry :=
  let entry := c.entries anilistId
  overlayPatch
    { id := (entry.map (fun e => e.id)).getD (-1)
      mediaId := anilistId
      score := (entry.map (fun e => e.score)).getD (-1)
      progress := (entry.map (fun e => e.progress)).getD (-1)
      rewatched := (entry.map (fun e => e.rewatched)).getD (-1)
      status := (entry.map (fun e => e.status)).getD MediaListStatus.Planning }
    newValues

/-- Spec-side projection (section 4.3, step 1): "overlay the requested change
on the last-known cached entry, falling back to documented sentinel defaults,
e.g. `score = -1`, `status = Planning`, when no prior entry exists". -/
def specProjectedEntry (prior : Option ListEntry) (anilistId : Int)
    (p : EntryPatch) : ListEntry :=
  match prior with
  | some e => overlayPatch { e with mediaId := anilistId } p
  | none =>
    overlayPatch
      { id := -1, mediaId := anilistId, score := -1, progress := -1
        rewatched := -1, status := MediaListStatus.Planning } p

/-- Modelled from the spec: `addToCacheList(entry)` "inserts a `ListEntry`
into the bucket corresponding to its `status`" (section 4.4; the helper's
source, `src/utils/cache.ts`, is not among the provided files). -/
def addToCacheList (c : Cache) (e : ListEntry) : Cache :=
  { c with
    buckets := fun s => if s = e.status then e :: c.buckets s else c.buckets s }

/-- Modelled from the spec: `removeFromCacheList(mediaId)` "removes any
existing entry for `mediaId` from whichever bucket holds it; no-op if absent"
(section 4.4; source not among the provided files). -/
def removeFromCacheList (c : Cache) (mediaId : Int) : Cache :=
  { c with
    buckets := fun s => (c.buckets s).filter (fun e => e.mediaId != mediaId) }

/-- Modelled from the spec: `writeEpisodeProgressToCache(mutationObject)`
"updates the cached current-episode pointer for an anime/provider pair"
(section 4.4; source not among the provided files). -/
def writeEpisodeProgressToCache (c : Cache) (m : EpisodeMutationObject) : Cache :=
  { c with
    episodeProgress := fun k =>
      if k = (m.provider, m.animeId) then some m.episodeNumber
      else c.episodeProgress k }

/-- The entry for `mediaId` appears in the status bucket `s`. -/
def entryInBucket (c : Cache) (s : MediaListStatus) (mediaId : Int) : Prop :=
  ∃ e ∈ c.buckets s, e.mediaId = mediaId

/-- Translated from the `update` callback of `updateStatus` (list-entry.ts,
lines 164-167), run on the mutation response: remove the entry for
`anilistId` from its old bucket, then insert the returned entry. -/
def updateStatusUpdate (c : Cache) (anilistId : Int) (server : ListEntry) :
    Cache :=
  addToCacheList (removeFromCacheList c anilistId) server

/-- Outcome of `setProgress`: either the pre-dispatch validation error, or a
dispatched `UpdateProgress` mutation with its variables and optimistic entry. -/
inductive SetProgressOutcome where
  | validationError (message : String)
  | dispatched (anilistId : Int) (progress : Int) (optimistic : ListEntry)
deriving DecidableEq

/-- Translated from `setProgress` (list-entry.ts, lines 212-247): negative
progress returns the captured error before any variables, optimistic
response, or mutation are built; otherwise the mutation is dispatched. -/
def setProgress (c : Cache) (options : EpisodeMutationObject) :
    SetProgressOutcome :=
  let progress := options.episodeNumber
  if progress < 0 then
    SetProgressOutcome.validationError "Tried to set progress to -1"
  else
    SetProgressOutcome.dispatched options.animeId progress
      (getOptimisticResponse c options.animeId { progress := some progress })

/-- Translated from the `optimisticResponse` of `startRewatching`
(list-entry.ts, lines 178-183): the projected entry with
`status: Repeating, progress: 0`. -/
def startRewatchingOptimistic (c : Cache) (anilistId : Int) : ListEntry :=
  getOptimisticResponse c anilistId
    { status := some MediaListStatus.Repeating, progress := some 0 }

/-- Translated from the `update` callback of `startRewatching` (list-entry.ts,
lines 184-195): insert the returned entry into its bucket, then write the
synthetic episode-0 progress event for its `mediaId`. -/
def startRewatchingUpdate (c : Cache) (entry : ListEntry) : Cache :=
  writeEpisodeProgressToCache (addToCacheList c entry)
    { provider := Provider.Crunchyroll, animeId := entry.mediaId
      episodeNumber := 0 }

/-- The client-visible result of a `startRewatching` call: Apollo applies the
`update` callback to the optimistic response (and, on success, again to the
server entry, which for this mutation carries the same reset fields). -/
def startRewatchingSuccess (c : Cache) (anilistId : Int) : Cache :=
  startRewatchingUpdate c (startRewatchingOptimistic c anilistId)

/-! ## Hidive request signing (claim C7) -/

/-- The module-level session state read by `generateSignature`: the identifiers
established by `createVisit` plus the stored profile. In JS the numeric ids
are coerced to decimal strings by the `+` concatenation. -/
structure HidiveSession where
  ipAddress : String
  deviceId : String
  visitId : String
  userId : Nat
  profileId : Nat

/-- Translated from `Hidive.generateNonce` (part_001, lines 426-434): hash the
`yyMMddHHmm`-formatted current UTC timestamp concatenated with the shared
secret. The formatted timestamp and the hash function are parameters of the
embedding (wall-clock time and SHA-256 are outside the program). -/
def generateNonce (sha256hex : String → String)
    (formattedUtcDate token : String) : String :=
  sha256hex (formattedUtcDate ++ token)

/-- Translated from `Hidive.generateSignature` (part_001, lines 436-449): hash
`ipAddress + APP_ID + deviceId + visitId + userId + profileId +
JSON.stringify(body) + nonce + TOKEN`, associated to the left as JS `+` is.
`bodyJson` stands for the `JSON.stringify(body)` text. -/
def generateSignature (sha256hex : String → String) (appId token : String)
    (s : HidiveSession) (nonce bodyJson : String) : String :=
  sha256hex (s.ipAddress ++ appId ++ s.deviceId ++ s.visitId ++
    toString s.userId ++ toString s.profileId ++ bodyJson ++ nonce ++ token)

/-- Spec-side signature payload: "concatenating session/device identifiers,
the request body, the nonce, and the secret", grouped in that structure. -/
def specSignaturePayload (appId token : String) (s : HidiveSession)
    (nonce bodyJson : String) : String :=
  (s.ipAddress ++ appId ++ s.deviceId ++ s.visitId ++
      toString s.userId ++ toString s.profileId) ++
    (bodyJson ++ (nonce ++ token))

/-! ## Hidive episode ids (claim C9) -/

/-- Translated from `Hidive.fetchEpisodesById` (part_001, line 320): an
episode id is `` `TitleId-VideoKey` `` — the numeric title id and the video
key joined by a hyphen. -/
def mkHidiveEpisodeId (titleId : Nat) (videoKey : String) : String :=
  toString titleId ++ "-" ++ videoKey

/-- Split a character list at its last hyphen: a later match is preferred,
mirroring the greedy first group of `/^(.*)-(.*)$/`. -/
def splitLastHyphenAux : List Char → Option (List Char × List Char)
  | [] => none
  | c :: rest =>
    match splitLastHyphenAux rest with
    | some (a, b) => some (c :: a, b)
    | none => if c = '-' then some ([], rest) else none

/-- Translated from `Hidive.fetchStream` (part_001, line 337):
`id.match(/^(.*)-(.*)$/)` with a greedy first group captures everything up to
the last hyphen as `TitleId` and the remainder as `VideoKey`; a hyphen-free id
does not match at all (`none`). -/
def parseHidiveEpisodeId (s : String) : Option (String × String) :=
  (splitLastHyphenAux s.data).map (fun p => (String.mk p.1, String.mk p.2))

/-! ## Hidive stream resolution (claim C10) -/

/-- Does `hay` contain `needle` as a contiguous substring? Models JS
`String.prototype.includes`. -/
def listStartsWith : List Char → List Char → Bool
  | _, [] => true
  | [], _ :: _ => false
  | c :: cs, d :: ds => c == d && listStartsWith cs ds

def listContainsSeq : List Char → List Char → Bool
  | [], ds => ds.isEmpty
  | c :: cs, ds => listStartsWith (c :: cs) ds || listContainsSeq cs ds

def strIncludes (s sub : String) : Bool :=
  listContainsSeq s.data sub.data

/-- The fields of a Hidive `_Stream` payload that `fetchStream` reads:
`VideoUrls` as an ordered key/value list (each value being the `hls` url
array), the caption languages, the caption vtt url map, and `CurrentTime`. -/
structure HidiveStreamData where
  videoUrls : List (String × List String)
  captionLanguages : List String
  captionVttUrls : List (String × String)
  currentTime : Int
deriving DecidableEq

/-- A `GetVideos` transport result: superagent's `ok` flag plus the envelope
`Code` and `Data`. -/
structure HidiveVideosResponse where
  ok : Bool
  code : Int
  data : HidiveStreamData
deriving DecidableEq

/-- What a `fetchStream` call can do: resolve to a `Stream` object, return
`null`, or throw a `TypeError` from reading `.hls` off `undefined`. -/
inductive StreamOutcome where
  | stream (url : Option String) (subtitles : List (String × Option String))
      (progress : Int)
  | nullResult
  | typeError
deriving DecidableEq

/-- JS object lookup `CaptionVttUrls[lang]`: `undefined` when absent. -/
def lookupVtt (m : List (String × String)) (k : String) : Option String :=
  (m.find? (fun kv => kv.1 == k)).map (fun kv => kv.2)

/-- Translated from `Hidive.fetchStream` (part_001, lines 336-362): transport
or envelope failure returns `null`; otherwise the first `VideoUrls` key
containing `'Japanese'` is looked up unguarded — when no key matches, `find`
yields `undefined` and the `.hls` access throws. -/
def fetchStreamFromResponse (resp : HidiveVideosResponse) : StreamOutcome :=
  if !resp.ok || resp.code != 0 then StreamOutcome.nullResult
  else
    match resp.data.videoUrls.find? (fun kv => strIncludes kv.1 "Japanese") with
    | none => StreamOutcome.typeError
    | some kv =>
      StreamOutcome.stream kv.2.head?
        (resp.data.captionLanguages.map
          (fun lang => (lang, lookupVtt resp.data.captionVttUrls lang)))
        resp.data.currentTime

/-! ## Crunchyroll locale fetch (claim C8) -/

/-- A locale record from `list_locales`. -/
structure CrLocale where
  locale_id : String
  label : String
deriving DecidableEq

/-- A `list_locales` response as `responseIsError` sees it: the envelope
`error` flag, its `data` payload, and its `message`. -/
structure CrLocalesResponse where
  error : Bool
  data : List CrLocale
  message : String
deriving DecidableEq

/-- Observable network/timing events of a `fetchLocales` run. -/
inductive FetchEvent where
  | request
  | delayMs (n : Nat)
deriving DecidableEq

/-- Translated from `Crunchyroll.fetchLocales` (part_001, lines 811-824),
with the outcome of the first and (if reached) second `list_locales` request
supplied as arguments and the performed requests/delays recorded as a trace:
on a first failure wait 1500 ms and retry once; a second failure throws. -/
def fetchLocales (r1 r2 : CrLocalesResponse) :
    Except String (List CrLocale) × List FetchEvent :=
  if r1.error then
    if r2.error then
      (Except.error r2.message,
        [FetchEvent.request, FetchEvent.delayMs 1500, FetchEvent.request])
    else
      (Except.ok r2.data,
        [FetchEvent.request, FetchEvent.delayMs 1500, FetchEvent.request])
  else (Except.ok r1.data, [FetchEvent.request])

/-! ## Shared helper lemmas -/

theorem strData_append (a b : String) : (a ++ b).data = a.data ++ b.data :=
  String.data_append a b

theorem strAppend_assoc (a b c : String) : a ++ b ++ c = a ++ (b ++ c) :=
  String.ext (by simp [strData_append])

theorem jsSub_some_right (o : Option Rat) (c : Rat) :
    jsSub o (some c) = o.map (fun q => q - c) := by
  cases o <;> rfl

theorem parseJsNumber_nonneg (cs : List Char) (q : Rat)
    (h : parseJsNumber cs = some q) : 0 ≤ q := by
  unfold parseJsNumber at h
  split at h
  · simp only [Option.some.injEq] at h
    subst h
    norm_num
  · split at h
    · simp only [Option.some.injEq] at h
      subst h
      positivity
    · split at h
      · simp at h
      · simp only [Option.some.injEq] at h
        subst h
        positivity
    · simp at h

theorem whole_of_den_one (q : Rat) (hq : 0 ≤ q) (hd : q.den = 1) :
    ∃ n : ℕ, q = (n : Rat) := by
  refine ⟨q.num.toNat, ?_⟩
  have h1 : (q.num : Rat) = q := Rat.coe_int_num_of_den_eq_one hd
  have h2 : 0 ≤ q.num := Rat.num_nonneg.mpr hq
  rw [← h1]
  exact_mod_cast (Int.toNat_of_nonneg h2).symm

theorem isHalf_iff_fractional (m : MediaEntry) :
    episodeNumberIsHalf m = true ↔ specIsFractional m.episode_number := by
  unfold episodeNumberIsHalf specIsFractional
  cases hg : getEpisodeNumber m.episode_number with
  | none => simp [hg]
  | some q =>
    show (!(q.den == 1)) = true ↔ ∀ n : ℕ, some q ≠ some (n : Rat)
    simp only [Bool.not_eq_true', beq_eq_false_iff_ne, ne_eq, Option.some.injEq]
    constructor
    · intro hden n hqn
      exact hden (by rw [hqn]; exact Rat.den_natCast n)
    · intro hall hden
      obtain ⟨n, rfl⟩ :=
        whole_of_den_one q (parseJsNumber_nonneg _ q hg) hden
      exact hall n rfl

theorem splitLastHyphenAux_none_of_not_mem (cs : List Char) (h : '-' ∉ cs) :
    splitLastHyphenAux cs = none := by
  induction cs with
  | nil => rfl
  | cons c rest ih =>
    have hc : c ≠ '-' := fun e => h (e ▸ List.mem_cons_self _ _)
    have hr : '-' ∉ rest := fun hm => h (List.mem_cons_of_mem _ hm)
    unfold splitLastHyphenAux
    rw [ih hr]
    simp [hc]

theorem splitLastHyphenAux_not_mem_of_none (cs : List Char)
    (h : splitLastHyphenAux cs = none) : '-' ∉ cs := by
  induction cs with
  | nil => simp
  | cons c rest ih =>
    unfold splitLastHyphenAux at h
    cases hr : splitLastHyphenAux rest with
    | some p =>
      rw [hr] at h
      simp at h
    | none =>
      rw [hr] at h
      by_cases hc : c = '-'
      · rw [if_pos hc] at h
        simp at h
      · intro hm
        rcases List.mem_cons.mp hm with h1 | h2
        · exact hc h1.symm
        · exact ih hr h2

theorem splitLastHyphenAux_append (pre : List Char) :
    ∀ v : List Char, '-' ∉ v →
      splitLastHyphenAux (pre ++ '-' :: v) = some (pre, v) := by
  induction pre with
  | nil =>
    intro v hv
    show splitLastHyphenAux ('-' :: v) = some ([], v)
    unfold splitLastHyphenAux
    rw [splitLastHyphenAux_none_of_not_mem v hv]
    simp
  | cons c pre ih =>
    intro v hv
    show splitLastHyphenAux (c :: (pre ++ '-' :: v)) = _
    unfold splitLastHyphenAux
    rw [ih v hv]

theorem splitLastHyphenAux_snd_no_hyphen (cs : List Char) :
    ∀ a b : List Char, splitLastHyphenAux cs = some (a, b) → '-' ∉ b := by
  induction cs with
  | nil =>
    intro a b h
    simp [splitLastHyphenAux] at h
  | cons c rest ih =>
    intro a b h
    unfold splitLastHyphenAux at h
    cases hr : splitLastHyphenAux rest with
    | some p =>
      obtain ⟨a', b'⟩ := p
      rw [hr] at h
      simp only [Option.some.injEq, Prod.mk.injEq] at h
      obtain ⟨-, h2⟩ := h
      subst h2
      exact ih a' _ hr
    | none =>
      rw [hr] at h
      by_cases hc : c = '-'
      · rw [if_pos hc] at h
        simp only [Option.some.injEq, Prod.mk.injEq] at h
        obtain ⟨-, h2⟩ := h
        subst h2
        exact splitLastHyphenAux_not_mem_of_none _ hr
      · rw [if_neg hc] at h
        simp at h

/-! ## Claim theorems -/

/-- Claim C4: for every list mutation, the optimistic projected `ListEntry`
equals the last-known cached entry for that `mediaId` overlaid with the
requested change; when no prior cached entry exists the projection falls back
to the sentinel defaults `score = -1`, `status = Planning`. -/
theorem getOptimisticResponse_matches_spec (c : Cache) (anilistId : Int)
    (p : EntryPatch) :
    getOptimisticResponse c anilistId p =
      specProjectedEntry (c.entries anilistId) anilistId p := by
  unfold getOptimisticResponse specProjectedEntry
  cases h : c.entries anilistId <;> simp [h, overlayPatch]

/-- Claim C5: for every prior cache state, `startRewatching` projects the
entry with progress 0 and status `Repeating`, and its success path writes the
synthetic episode-0 progress event for the anime to the episode-progress
cache and inserts the reset entry into the `Repeating` bucket. -/
theorem startRewatching_resets_progress (c : Cache) (anilistId : Int) :
    (startRewatchingOptimistic c anilistId).progress = 0
    ∧ (startRewatchingOptimistic c anilistId).status = MediaListStatus.Repeating
    ∧ (startRewatchingSuccess c anilistId).episodeProgress
        (Provider.Crunchyroll, anilistId) = some 0
    ∧ startRewatchingOptimistic c anilistId ∈
        (startRewatchingSuccess c anilistId).buckets MediaListStatus.Repeating := by
  refine ⟨rfl, rfl, ?_, ?_⟩
  · simp [startRewatchingSuccess, startRewatchingUpdate,
      writeEpisodeProgressToCache, startRewatchingOptimistic,
      getOptimisticResponse, overlayPatch]
  · simp [startRewatchingSuccess, startRewatchingUpdate,
      writeEpisodeProgressToCache, addToCacheList, startRewatchingOptimistic,
      getOptimisticResponse, overlayPatch]

/-- Claim C3: a progress-update request with a negative progress value is
rejected before dispatch: `setProgress` reports the validation error and
never issues the `UpdateProgress` mutation. -/
theorem setProgress_negative_rejected (c : Cache)
    (options : EpisodeMutationObject) (h : options.episodeNumber < 0) :
    setProgress c options =
      SetProgressOutcome.validationError "Tried to set progress to -1"
    ∧ ∀ a p e, setProgress c options ≠ SetProgressOutcome.dispatched a p e := by
  constructor
  · simp [setProgress, h]
  · intro a p e
    simp [setProgress, h]

theorem setProgress_negative_rejected_example :
    setProgress ⟨fun _ => none, fun _ => [], fun _ => none⟩
        ⟨Provider.Crunchyroll, 5, -1⟩ =
      SetProgressOutcome.validationError "Tried to set progress to -1"
    ∧ ∀ a p e,
        setProgress ⟨fun _ => none, fun _ => [], fun _ => none⟩
            ⟨Provider.Crunchyroll, 5, -1⟩ ≠
          SetProgressOutcome.dispatched a p e :=
  setProgress_negative_rejected _ _ (by decide)

/-- Claim C2: after a successful `UpdateStatus` mutation whose returned entry
is for the mutated `mediaId`, that `mediaId` appears in exactly one status
bucket of the local cache — the bucket of the new status. -/
theorem updateStatus_exactly_one_bucket (c : Cache) (anilistId : Int)
    (server : ListEntry) (s : MediaListStatus)
    (h : server.mediaId = anilistId) :
    entryInBucket (updateStatusUpdate c anilistId server) s anilistId ↔
      s = server.status := by
  have hb : (updateStatusUpdate c anilistId server).buckets s =
      if s = server.status then
        server :: (c.buckets s).filter (fun e => e.mediaId != anilistId)
      else (c.buckets s).filter (fun e => e.mediaId != anilistId) := rfl
  unfold entryInBucket
  rw [hb]
  by_cases hs : s = server.status
  · rw [if_pos hs]
    exact ⟨fun _ => hs, fun _ => ⟨server, List.mem_cons_self _ _, h⟩⟩
  · rw [if_neg hs]
    constructor
    · rintro ⟨e, he, hme⟩
      rcases List.mem_filter.mp he with ⟨-, hne⟩
      exact absurd hme (by simpa using hne)
    · intro hss
      exact absurd hss hs

theorem updateStatus_exactly_one_bucket_example :
    entryInBucket
        (updateStatusUpdate
          ⟨fun _ => none,
            fun s =>
              if s = MediaListStatus.Current then
                [⟨10, 7, 80, 3, 0, MediaListStatus.Current⟩]
              else [],
            fun _ => none⟩
          7 ⟨10, 7, 80, 3, 0, MediaListStatus.Completed⟩)
        MediaListStatus.Completed 7 ↔
      MediaListStatus.Completed =
        (⟨10, 7, 80, 3, 0, MediaListStatus.Completed⟩ : ListEntry).status :=
  updateStatus_exactly_one_bucket _ _ _ _ rfl

/-- Claim C7: the Hidive nonce is the hash of the formatted current UTC
timestamp concatenated with the shared secret, and the signature is the hash
of the session/device identifiers, the request body, the nonce, and the
secret concatenated in that structure. -/
theorem hidive_nonce_signature_structure (sha256hex : String → String)
    (appId token : String) (s : HidiveSession)
    (formattedUtcDate nonce bodyJson : String) :
    generateNonce sha256hex formattedUtcDate token =
      sha256hex (formattedUtcDate ++ token)
    ∧ generateSignature sha256hex appId token s nonce bodyJson =
        sha256hex (specSignaturePayload appId token s nonce bodyJson) := by
  refine ⟨rfl, ?_⟩
  unfold generateSignature specSignaturePayload
  rw [strAppend_assoc, strAppend_assoc]

/-- Claim C8: `fetchLocales` retries exactly once, after a fixed 1500 ms
delay, when the first request fails; a second failure raises the error, and a
success on either attempt returns the locale list. The trace lists every
request and delay performed, so no other retries occur. -/
theorem fetchLocales_retry_once (r1 r2 : CrLocalesResponse) :
    (r1.error = false →
      fetchLocales r1 r2 = (Except.ok r1.data, [FetchEvent.request]))
    ∧ (r1.error = true → r2.error = false →
        fetchLocales r1 r2 = (Except.ok r2.data,
          [FetchEvent.request, FetchEvent.delayMs 1500, FetchEvent.request]))
    ∧ (r1.error = true → r2.error = true →
        fetchLocales r1 r2 = (Except.error r2.message,
          [FetchEvent.request, FetchEvent.delayMs 1500, FetchEvent.request])) := by
  refine ⟨fun h1 => ?_, fun h1 h2 => ?_, fun h1 h2 => ?_⟩ <;>
    simp [fetchLocales, h1, *]

theorem fetchLocales_retry_once_example :
    fetchLocales ⟨true, [], "first failure"⟩ ⟨true, [], "second failure"⟩ =
      (Except.error "second failure",
        [FetchEvent.request, FetchEvent.delayMs 1500, FetchEvent.request]) :=
  (fetchLocales_retry_once _ _).2.2 rfl rfl

/-- Claim C1 counterexample: on input episode numbers `[0, 1]` the clamped
shift is 0, so the first retained episode keeps number 0 — it is not
renumbered to 1, refuting "the first retained episode is numbered 1" for
every episode list. -/
theorem fixEpisodeNumbers_first_zero_not_one :
    (fixEpisodeNumbers [⟨"m1", "0"⟩, ⟨"m2", "1"⟩]).map
        (fun e => e.episodeNumber) = [some 0, some 1]
    ∧ (some (0 : Rat)) ≠ (some (1 : Rat)) := by
  have h0 : getEpisodeNumber "0" = some 0 := by
    show some ((digitsToNat ['0'] : ℕ) : ℚ) = some 0
    norm_num [show digitsToNat ['0'] = 0 from rfl]
  have hone : getEpisodeNumber "1" = some 1 := by
    show some ((digitsToNat ['1'] : ℕ) : ℚ) = some 1
    norm_num [show digitsToNat ['1'] = 1 from rfl]
  constructor
  · show [jsSub (getEpisodeNumber "0")
        (jsMax0 (jsSub (getEpisodeNumber "0") (some 1))),
      jsSub (getEpisodeNumber "1")
        (jsMax0 (jsSub (getEpisodeNumber "0") (some 1)))] = [some 0, some 1]
    rw [h0, hone]
    have hm : max (0 : ℚ) (0 - 1) = 0 := max_eq_left (by norm_num)
    simp [jsSub, jsMax0, hm]
  · simp

/-- Claim C1 (amended): whenever the episode list is nonempty and its first
episode number parses to `q0`, `fixEpisodeNumbers` rewrites every episode
number by `rawNumber - max 0 (q0 - 1)` — the claimed formula with the
subtrahend clamped — preserving order, ids and offsets; consequently the
first retained episode is numbered 1 whenever `q0 ≥ 1` (for example,
`[3,4,5]` becomes `[1,2,3]`), though not when `q0 < 1`. -/
theorem fixEpisodeNumbers_renumber_formula (eps : List RawEpisode)
    (ep0 : RawEpisode) (q0 : Rat) (h1 : eps.head? = some ep0)
    (h2 : getEpisodeNumber ep0.episodeNumber = some q0) :
    (fixEpisodeNumbers eps).map (fun e => e.episodeNumber) =
      eps.map (fun ep =>
        (getEpisodeNumber ep.episodeNumber).map (fun q => q - max 0 (q0 - 1)))
    ∧ (fixEpisodeNumbers eps).map (fun e => e.id) = eps.map (fun ep => ep.id)
    ∧ (1 ≤ q0 →
        (fixEpisodeNumbers eps).head? = some ⟨ep0.id, some 1⟩) := by
  cases eps with
  | nil => simp at h1
  | cons a tl =>
    have ha : a = ep0 := by simpa using h1
    subst ha
    have hfix : fixEpisodeNumbers (a :: tl) =
        (a :: tl).map (fun ep =>
          (⟨ep.id, jsSub (getEpisodeNumber ep.episodeNumber)
            (some (max 0 (q0 - 1)))⟩ : FixedEpisode)) := by
      show (a :: tl).map (fun ep =>
          (⟨ep.id, jsSub (getEpisodeNumber ep.episodeNumber)
            (jsMax0 (jsSub (getEpisodeNumber a.episodeNumber) (some 1)))⟩ :
            FixedEpisode)) = _
      rw [h2]
      rfl
    refine ⟨?_, ?_, ?_⟩
    · rw [hfix, List.map_map]
      congr 1
      funext ep
      exact jsSub_some_right _ _
    · rw [hfix, List.map_map]
      rfl
    · intro h3
      rw [hfix]
      show some (⟨a.id, jsSub (getEpisodeNumber a.episodeNumber)
        (some (max 0 (q0 - 1)))⟩ : FixedEpisode) = some ⟨a.id, some 1⟩
      rw [h2]
      have hm : max 0 (q0 - 1) = q0 - 1 := max_eq_right (by linarith)
      rw [hm]
      show some (⟨a.id, some (q0 - (q0 - 1))⟩ : FixedEpisode) = _
      rw [sub_sub_cancel]

theorem fixEpisodeNumbers_renumber_example :
    ((fixEpisodeNumbers [⟨"a", "3"⟩, ⟨"b", "4"⟩, ⟨"c", "5"⟩]).map
        (fun e => e.episodeNumber) =
      [(⟨"a", "3"⟩ : RawEpisode), ⟨"b", "4"⟩, ⟨"c", "5"⟩].map (fun ep =>
        (getEpisodeNumber ep.episodeNumber).map
          (fun q => q - max 0 ((3 : Rat) - 1))))
    ∧ ((fixEpisodeNumbers [⟨"a", "3"⟩, ⟨"b", "4"⟩, ⟨"c", "5"⟩]).map
          (fun e => e.id) =
        [(⟨"a", "3"⟩ : RawEpisode), ⟨"b", "4"⟩, ⟨"c", "5"⟩].map
          (fun ep => ep.id))
    ∧ (1 ≤ (3 : Rat) →
        (fixEpisodeNumbers [⟨"a", "3"⟩, ⟨"b", "4"⟩, ⟨"c", "5"⟩]).head? =
          some ⟨"a", some 1⟩) :=
  fixEpisodeNumbers_renumber_formula _ ⟨"a", "3"⟩ 3 rfl (by decide)

/-- Claim C6: `isRealEpisode` returns `false` exactly when the entry's
episode number is fractional (does not denote a whole number) or the entry
is marked as a special (`episode_number` equal to `"SP"` or the empty
string), and returns `true` otherwise. -/
theorem isRealEpisode_false_iff (m : MediaEntry) :
    isRealEpisode m = false ↔
      (specIsFractional m.episode_number ∨ m.episode_number = "SP" ∨
        m.episode_number = "") := by
  unfold isRealEpisode isSpecialEpisode
  simp only [Bool.not_eq_false', Bool.or_eq_true, beq_iff_eq,
    isHalf_iff_fractional]

theorem isRealEpisode_false_iff_example :
    isRealEpisode ⟨"2.5"⟩ = false ↔
      (specIsFractional "2.5" ∨ "2.5" = "SP" ∨ "2.5" = "") :=
  isRealEpisode_false_iff ⟨"2.5"⟩

/-- Claim C9: a Hidive episode id is the title id and the video key joined
by a hyphen, and `fetchStream` splits it at the last hyphen; the parse
recovers the original (title id, video key) pair exactly when the video key
contains no hyphen. -/
theorem hidive_episodeId_roundtrip_iff (titleId : Nat) (videoKey : String) :
    parseHidiveEpisodeId (mkHidiveEpisodeId titleId videoKey) =
      some (toString titleId, videoKey) ↔ '-' ∉ videoKey.data := by
  have hdata : (mkHidiveEpisodeId titleId videoKey).data =
      (toString titleId).data ++ '-' :: videoKey.data := by
    unfold mkHidiveEpisodeId
    rw [strData_append, strData_append]
    simp
  constructor
  · intro h
    unfold parseHidiveEpisodeId at h
    rw [hdata] at h
    cases hs : splitLastHyphenAux
        ((toString titleId).data ++ '-' :: videoKey.data) with
    | none =>
      rw [hs] at h
      simp at h
    | some p =>
      rw [hs] at h
      simp only [Option.map_some', Option.some.injEq, Prod.mk.injEq] at h
      obtain ⟨-, h2⟩ := h
      have hb : p.2 = videoKey.data := by rw [← h2]
      have hnb := splitLastHyphenAux_snd_no_hyphen _ p.1 p.2 hs
      rwa [hb] at hnb
  · intro h
    unfold parseHidiveEpisodeId
    rw [hdata, splitLastHyphenAux_append (toString titleId).data
      videoKey.data h]
    rfl

theorem hidive_episodeId_roundtrip_example :
    (parseHidiveEpisodeId (mkHidiveEpisodeId 5 "abc") =
      some (toString 5, "abc") ↔ '-' ∉ "abc".data) :=
  hidive_episodeId_roundtrip_iff 5 "abc"

/-- Claim C10: on a successful `GetVideos` response, `fetchStream` returns
the first HLS url of the first video-url entry whose key contains
`'Japanese'`; the lookup is unguarded, so with no matching key the call
throws instead of returning null, and null is returned exactly for
transport or provider-rejected responses. -/
theorem fetchStream_japanese_lookup (resp : HidiveVideosResponse) :
    (fetchStreamFromResponse resp = StreamOutcome.nullResult ↔
      (resp.ok = false ∨ resp.code ≠ 0))
    ∧ (∀ kv, resp.ok = true → resp.code = 0 →
        resp.data.videoUrls.find? (fun p => strIncludes p.1 "Japanese") =
          some kv →
        fetchStreamFromResponse resp =
          StreamOutcome.stream kv.2.head?
            (resp.data.captionLanguages.map (fun lang =>
              (lang, lookupVtt resp.data.captionVttUrls lang)))
            resp.data.currentTime)
    ∧ (resp.ok = true → resp.code = 0 →
        resp.data.videoUrls.find? (fun p => strIncludes p.1 "Japanese") =
          none →
        fetchStreamFromResponse resp = StreamOutcome.typeError) := by
  refine ⟨?_, ?_, ?_⟩
  · unfold fetchStreamFromResponse
    by_cases h : (!resp.ok || resp.code != 0) = true
    · rw [if_pos h]
      exact iff_of_true rfl (by simpa using h)
    · rw [if_neg h]
      have h' : resp.ok = true ∧ resp.code = 0 := by simpa using h
      cases hf : resp.data.videoUrls.find?
          (fun p => strIncludes p.1 "Japanese") with
      | none =>
        exact iff_of_false (by simp) (by simp [h'.1, h'.2])
      | some kv =>
        exact iff_of_false (by simp) (by simp [h'.1, h'.2])
  · intro kv hok hcode hf
    unfold fetchStreamFromResponse
    rw [if_neg (by simp [hok, hcode]), hf]
  · intro hok hcode hf
    unfold fetchStreamFromResponse
    rw [if_neg (by simp [hok, hcode]), hf]

theorem fetchStream_japanese_lookup_example :
    fetchStreamFromResponse
        ⟨true, 0,
          ⟨[("Home/Japanese", ["urlA", "urlB"]), ("English", ["urlC"])],
            ["en"], [("en", "vtt1")], 42⟩⟩ =
      StreamOutcome.stream (some "urlA") [("en", some "vtt1")] 42 :=
  (fetchStream_japanese_lookup
      ⟨true, 0,
        ⟨[("Home/Japanese", ["urlA", "urlB"]), ("English", ["urlC"])],
          ["en"], [("en", "vtt1")], 42⟩⟩).2.1
    ("Home/Japanese", ["urlA", "urlB"]) rfl rfl rfl
